import Mathlib

/-!
Shallow embedding of the SmartCVNaija conversational bot core
(`src/services/bot.js`, webhooks in `src/server.js`, SQL schema in the DDL
file) and of the CV extraction worker (the current revision of
`workers/cv.js`, whose text carries that filepath in its header comment).

External collaborators (payment provider, AI service, message channels,
document parsers, clamscan, uuid generation) are modelled as oracle fields of
an environment record.  Redis is modelled as an explicit key/value map and
Postgres as an explicit record of tables; both are threaded through each
handler.  `JSON.stringify`/`JSON.parse` round-trips through Redis are
modelled by storing the structured value itself; a `JSON.parse` that hits a
value of the wrong shape corresponds to the source's `catch` branch.
TTL arguments of `redis.set` only govern expiry, which is not modelled.
-/

namespace SmartCV

/-- ASCII lower-casing of one character.  Embeds the case folding used by
`String.prototype.toLowerCase` and by Postgres `ILIKE`, restricted to ASCII
(every literal the source compares against is ASCII). -/
def asciiLower (c : Char) : Char :=
  if 'A' ≤ c ∧ c ≤ 'Z' then Char.ofNat (c.toNat + 32) else c

/-- ASCII lower-casing of a string, embedding `message.toLowerCase()`. -/
def lowerStr (s : String) : String :=
  (s.toList.map asciiLower).asString

/-- Whitespace class shared by the JavaScript regex `\s` and
`String.prototype.trim` (ASCII part: space, tab, line feed, vertical tab,
form feed, carriage return). -/
def isWs (c : Char) : Bool :=
  c = ' ' || c = '\t' || c = '\n' || c = '\x0b' || c = '\x0c' || c = '\r'

/-- Embedding of `text.trim()`: drop leading and trailing whitespace. -/
def jsTrim (l : List Char) : List Char :=
  ((l.dropWhile isWs).reverse.dropWhile isWs).reverse

/-- Worker for `collapseWs`; the flag records whether the previous input
character was whitespace (i.e. whether we are inside a run that has already
emitted its single space). -/
def collapseAux (prevWs : Bool) : List Char → List Char
  | [] => []
  | c :: rest =>
    if isWs c then
      if prevWs then collapseAux true rest
      else ' ' :: collapseAux true rest
    else c :: collapseAux false rest

/-- Embedding of `text.replace(/\s+/g, ' ')`: every maximal whitespace run
becomes a single space. -/
def collapseWs (l : List Char) : List Char :=
  collapseAux false l

/-- Embedding of JavaScript `reference.split('_')`: split on every
underscore, keeping empty segments. -/
def splitUnderscore : List Char → List (List Char)
  | [] => [[]]
  | c :: rest =>
    if c = '_' then [] :: splitUnderscore rest
    else
      match splitUnderscore rest with
      | [] => [[c]]
      | h :: t => (c :: h) :: t

/-- Fuelled matcher for SQL `LIKE`/`ILIKE` patterns: `%` matches any
(possibly empty) substring, `_` matches exactly one character, any other
pattern character matches case-insensitively (ASCII folding).  The default
`ESCAPE` character is not modelled; theorems that depend on it carry a
no-backslash hypothesis.  Fuel `p.length + t.length + 1` always suffices. -/
def likeAux : Nat → List Char → List Char → Bool
  | 0, _, _ => false
  | fuel + 1, p, t =>
    match p with
    | [] => t.isEmpty
    | c :: ps =>
      if c = '%' then
        likeAux fuel ps t ||
          (match t with
           | [] => false
           | _ :: ts => likeAux fuel p ts)
      else
        match t with
        | [] => false
        | d :: ts => (c = '_' || asciiLower c = asciiLower d) && likeAux fuel ps ts

/-- `likeMatch p t` decides whether `ILIKE` pattern `p` matches the whole
text `t`. -/
def likeMatch (p t : List Char) : Bool :=
  likeAux (p.length + t.length + 1) p t

/-- Case-insensitive (ASCII) list prefix test; building block for the
spec-side substring predicate. -/
def isPrefixCI : List Char → List Char → Bool
  | [], _ => true
  | _ :: _, [] => false
  | c :: p, d :: t => (asciiLower c = asciiLower d) && isPrefixCI p t

/-- Case-insensitive substring containment, written from the spec's words
(substring match, case-insensitive); compared against the source's
`ILIKE '%…%'` semantics in the C8 theorems. -/
def containsCI (p : List Char) : List Char → Bool
  | [] => isPrefixCI p []
  | d :: t => isPrefixCI p (d :: t) || containsCI p t

/-- A text filter value is wildcard-free when it contains none of the
`LIKE` metacharacters (`%`, `_`) nor the default escape character. -/
def wildcardFree (t : String) : Prop :=
  '%' ∉ t.toList ∧ '_' ∉ t.toList ∧ '\\' ∉ t.toList

/-- Wildcard-freedom lifted to an optional filter value. -/
def optWildcardFree : Option String → Prop
  | none => True
  | some t => wildcardFree t

/-- Spec-side shape of the worker's returned text: the only whitespace
character is a single space, no two adjacent whitespace characters, and no
leading or trailing whitespace. -/
def NormalizedText (l : List Char) : Prop :=
  (∀ c ∈ l, isWs c = true → c = ' ') ∧
  List.Chain' (fun a b => ¬(isWs a = true ∧ isWs b = true)) l ∧
  (∀ c, l.head? = some c → isWs c = false) ∧
  (∀ c, l.getLast? = some c → isWs c = false)

/-- A row of the `jobs` table (DDL: id, title, company, location,
is_remote, email). -/
structure Job where
  id : String
  title : String
  company : String
  location : String
  is_remote : Bool
  email : String
  deriving DecidableEq, Repr

/-- A row of the `payments` table (DDL: user_identifier primary key,
payment_status, payment_reference); the key is the map index in `Db`. -/
structure PaymentRow where
  payment_status : String
  payment_reference : String
  deriving DecidableEq, Repr

/-- A row of the `applications` table.  `cv_text` is `Option` because the
source inserts the raw `redis.get` result, which can be `null`. -/
structure Application where
  id : String
  user_identifier : String
  job_id : String
  cv_text : Option String
  cv_score : String
  deriving DecidableEq, Repr

/-- Values stored in Redis: plain strings (`cv:`, `email:`, `state:`,
`cover_letter:` keys) and JSON serialisations of job rows
(`last_jobs:` keys), job-id arrays (`pending_jobs:` keys) and cached search
responses (`jobs:…` keys), modelled structurally. -/
inductive RVal where
  | s (v : String)
  | jobRows (v : List Job)
  | ids (v : List String)
  | cache (response : String) (rowsv : List Job)
  deriving DecidableEq, Repr

/-- The Redis key space. -/
def RedisMap : Type := String → Option RVal

/-- `redis.set(k, v, 'EX', ttl)` (expiry not modelled). -/
def rset (m : RedisMap) (k : String) (v : RVal) : RedisMap :=
  fun q => if q = k then some v else m q

/-- `redis.del(k)`. -/
def rdel (m : RedisMap) (k : String) : RedisMap :=
  fun q => if q = k then none else m q

/-- View a fetched Redis value as the string the source expects at `cv:`,
`email:` and `cover_letter:` keys (`null` otherwise). -/
def rvalStr : Option RVal → Option String
  | some (.s v) => some v
  | _ => none

/-- The relational store: payments keyed by identifier, the immutable jobs
table (in table order) and the append-only applications table. -/
structure Db where
  payments : String → Option PaymentRow
  jobs : List Job
  applications : List Application

/-- Parsed search filters (`intent.filters`); absent fields are `none`. -/
structure Filters where
  title : Option String
  location : Option String
  company : Option String
  remote : Option Bool
  deriving DecidableEq, Repr

/-- A parsed intent as returned by `openaiService.parseJobQuery`. -/
structure Intent where
  action : String
  filters : Filters
  applyAll : Bool
  jobId : Option String
  response : Option String
  deriving DecidableEq, Repr

/-- An uploaded file as the handlers see it: only its byte length and the
declared email matter to the orchestration core (the bytes themselves are
consumed by the extraction oracle). -/
structure UploadFile where
  bufLen : Nat
  email : Option String
  deriving DecidableEq, Repr

/-- Oracles for every external collaborator of one conversational turn.
`uuid` is the `uuidv4()` drawn by `initiatePayment`, `appUuid` the one drawn
per application insert; `amountText` is the rendered
`(config.get('paystack.amount') / 100).toFixed(2)`; `initUrl` embeds
`paystackService.initializePayment(identifier, reference, email)` (its
success path; a provider throw is caughtupstream by the handler-wide catch);
`verify` embeds `paystackService.verifyPayment`; `extractCv` the enqueue /
`waitUntilFinished` round trip of the cv queue; the remaining fields embed
the AI collaborator. -/
structure BotEnv where
  uuid : String
  appUuid : String → String
  amountText : String
  initUrl : String → String → String → String
  verify : String → Bool
  extractCv : UploadFile → Except String String
  genCoverLetter : Option String → String
  analyzeCv : Option String → String
  parseIntent : Option String → Intent

/-- Result of one conversational turn: the Redis and database states after
the turn and the text replied to the user (channel routing by identifier
prefix is the notification sink's concern and not modelled). -/
structure TurnResult where
  redis : RedisMap
  db : Db
  reply : String

/-- Result of `initiatePayment`: updated payments table and redirect URL. -/
structure InitResult where
  db : Db
  url : String

/-- `checkPaymentStatus(identifier)`: read the payments row; a missing row
reads as the string `pending`. -/
def checkPaymentStatus (db : Db) (identifier : String) : String :=
  match db.payments identifier with
  | some p => p.payment_status
  | none => "pending"

/-- `INSERT INTO payments … ON CONFLICT (user_identifier) DO UPDATE SET
payment_reference = $3`: a fresh row is `pending` with the new reference; an
existing row keeps its status and only the reference is overwritten. -/
def upsertPayment (db : Db) (identifier reference : String) : Db :=
  { db with payments := fun q =>
      if q = identifier then
        match db.payments identifier with
        | none => some { payment_status := "pending", payment_reference := reference }
        | some row => some { row with payment_reference := reference }
      else db.payments q }

/-- The reference string built by `initiatePayment`:
a backtick-template joining `uuidv4()` and the identifier with `_`. -/
def makeReference (uuid identifier : String) : String :=
  uuid ++ "_" ++ identifier

/-- `initiatePayment(identifier)`: resolve the best-known email (the cached
one unless absent or empty, which are both falsy, else the synthesized
placeholder), build the reference, upsert the payments row and ask the
provider for a redirect URL. -/
def initiatePayment (env : BotEnv) (redis : RedisMap) (db : Db) (identifier : String) :
    InitResult :=
  let email :=
    match rvalStr (redis ("email:" ++ identifier)) with
    | some v => if v = "" then identifier ++ "@example.com" else v
    | none => identifier ++ "@example.com"
  let reference := makeReference env.uuid identifier
  { db := upsertPayment db identifier reference
  , url := env.initUrl identifier reference email }

/-- `const [, identifier] = reference.split('_')`: the segment at index 1
(`undefined`, modelled as the empty string, when there is no underscore). -/
def parseReferenceIdentifier (reference : String) : String :=
  ((splitUnderscore reference.toList).getD 1 []).asString

/-- `UPDATE payments SET payment_status = 'completed' WHERE user_identifier
= $2 AND payment_reference = $3`: only the row whose key is the parsed
identifier and whose stored reference equals the verified reference is
flipped. -/
def confirmUpdate (db : Db) (identifier reference : String) : Db :=
  { db with payments := fun q =>
      match db.payments q with
      | none => none
      | some row =>
        if q = identifier ∧ row.payment_reference = reference then
          some { row with payment_status := "completed" }
        else some row }

/-- Reply templates of `src/services/bot.js`, as named constants.  ASCII
apostrophes inside the original message texts are elided here (they are
orthogonal to every claim); the naira sign and double quotes are kept. -/
def genericApology : String := "Sorry, an error occurred. Please try again."

/-- Reply when a CV arrives before payment is completed. -/
def payBeforeUploadMsg (amount url : String) : String :=
  "Please complete the payment of ₦" ++ amount ++ " before uploading your CV: " ++ url

/-- Reply when `apply_job` arrives before payment is completed. -/
def payToProceedMsg (amount url : String) : String :=
  "Please pay ₦" ++ amount ++ " to proceed with CV upload and application: " ++ url

/-- Reply after a successful CV upload. -/
def uploadSuccessMsg : String :=
  "CV uploaded successfully! Please provide a cover letter for your application or reply \"generate\" to create one."

/-- Reply prompting for a cover letter during `apply_job`. -/
def coverLetterPromptMsg : String :=
  "Please provide a cover letter for your application or reply \"generate\" to create one."

/-- Reply prompting for a CV upload during `apply_job`. -/
def uploadCvPromptMsg : String :=
  "Please upload your CV (PDF or DOCX, max 5MB) in this chat."

/-- Reply when the file exceeds the 5 MB bound. -/
def fileTooLargeMsg : String :=
  "File is too large. Please upload a CV smaller than 5MB."

/-- Fallback reply of the default intent branch. -/
def fallbackMsg : String :=
  "I did not understand that. Try \"find jobs\" or \"upload CV\"."

/-- Reply after a cover letter is saved with no pending jobs. -/
def coverLetterSavedMsg : String :=
  "Cover letter saved! You can now search for jobs or apply."

/-- `processPayment(reference)`: parse the identifier out of the reference,
verify with the provider, and on success run the conditional `UPDATE` and
acknowledge (with a hint when a pending-jobs set exists). -/
def processPayment (env : BotEnv) (redis : RedisMap) (db : Db) (reference : String) :
    TurnResult :=
  let identifier := parseReferenceIdentifier reference
  if env.verify reference then
    let db' := confirmUpdate db identifier reference
    let pendingJobs := redis ("pending_jobs:" ++ identifier)
    { redis := redis, db := db'
    , reply := "Payment successful! Please upload your CV (PDF or DOCX, max 5MB) in this chat" ++
        (if pendingJobs.isSome then " to proceed with your application(s)" else " to apply for jobs") ++ "." }
  else
    { redis := redis, db := db, reply := "Payment failed. Please try again." }

/-- Parameter construction of the search query: `title ? `%title%` : null`
(an empty string is falsy and behaves like an unset filter). -/
def textParam : Option String → Option String
  | some t => if t = "" then none else some ("%" ++ t ++ "%")
  | none => none

/-- `text ILIKE pattern` (whole-string pattern match). -/
def ilike (text pattern : String) : Bool :=
  likeMatch pattern.toList text.toList

/-- One text conjunct of the `WHERE` clause:
`($i IS NULL OR field ILIKE $i)`. -/
def whereTextField (p : Option String) (field : String) : Bool :=
  match p with
  | none => true
  | some pat => ilike field pat

/-- The boolean conjunct of the `WHERE` clause:
`($4 IS NULL OR is_remote = $4)`. -/
def whereBoolField (p : Option Bool) (b : Bool) : Bool :=
  match p with
  | none => true
  | some v => b = v

/-- The `WHERE` clause of the search query, evaluated on one row. -/
def rowWhere (p1 p2 p3 : Option String) (p4 : Option Bool) (j : Job) : Bool :=
  whereTextField p1 j.title && whereTextField p2 j.location &&
    whereTextField p3 j.company && whereBoolField p4 j.is_remote

/-- The search query `SELECT * FROM jobs WHERE … LIMIT 5`, with the table
scanned in row order (the query carries no `ORDER BY`). -/
def searchJobsQuery (f : Filters) (table : List Job) : List Job :=
  (table.filter
    (rowWhere (textParam f.title) (textParam f.location) (textParam f.company) f.remote)).take 5

/-- Spec-side field test, written from the spec's words: an unset filter
excludes no row; a set one is a case-insensitive substring match. -/
def specTextField (t : Option String) (field : String) : Bool :=
  match t with
  | none => true
  | some tv => containsCI tv.toList field.toList

/-- Spec-side row predicate, written from the spec's words: a `null` filter
excludes no row; a set text filter is a case-insensitive substring match on
its field; a set remote filter is an exact boolean match. -/
def satisfiesFilters (f : Filters) (j : Job) : Bool :=
  specTextField f.title j.title && specTextField f.location j.location &&
    specTextField f.company j.company && whereBoolField f.remote j.is_remote

/-- Serialisation of an optional string field inside the search cache key. -/
def optFieldStr : Option String → String
  | none => "null"
  | some v => "\"" ++ v ++ "\""

/-- Abstract stable encoding of `JSON.stringify(intent.filters)`; the exact
JSON shape is irrelevant to every claim, only its use as a cache key. -/
def filtersKey (f : Filters) : String :=
  optFieldStr f.title ++ "|" ++ optFieldStr f.location ++ "|" ++ optFieldStr f.company ++ "|" ++
    (match f.remote with | none => "null" | some true => "true" | some false => "false")

/-- One numbered line of the search result list. -/
def renderJobLine (i : Nat) (j : Job) : String :=
  toString (i + 1) ++ ". " ++ j.title ++ " at " ++ j.company ++ " (" ++ j.location ++ ")"

/-- The numbered lines of the search result list, joined by newlines. -/
def renderJobLines : Nat → List Job → String
  | _, [] => ""
  | i, [j] => renderJobLine i j
  | i, j :: rest => renderJobLine i j ++ "\n" ++ renderJobLines (i + 1) rest

/-- The rendered search response. -/
def searchResponse (rows : List Job) : String :=
  "Found " ++ toString rows.length ++ " jobs:\n" ++ renderJobLines 0 rows ++
    "\nReply with \"apply all\" or \"apply <number>\" (e.g., \"apply 1\")."

/-- `JSON.parse(lastJobsRaw).map(job => job.id)` guarded by the source's
truthiness check and `catch` (absent key or wrong shape yields `[]`). -/
def lastJobsIds : Option RVal → List String
  | some (.jobRows rows) => rows.map Job.id
  | _ => []

/-- Resolution of the target job ids of an `apply_job` intent: the full
last-results set under `applyAll`, else the single `jobId` when set and
truthy (an empty string is falsy), else none. -/
def resolveJobIds (redis : RedisMap) (identifier : String) (intent : Intent) : List String :=
  if intent.applyAll then lastJobsIds (redis ("last_jobs:" ++ identifier))
  else
    match intent.jobId with
    | some j => if j = "" then [] else [j]
    | none => []

/-- One iteration of the `applyToJobs` fan-out loop: a vanished job id is
skipped silently; otherwise the CV is scored, an application row appended
(the recruiter email has no modelled state effect) and a success entry
accumulated. -/
def applyStep (env : BotEnv) (identifier : String) (cvText : Option String) :
    Db × List (String × String) → String → Db × List (String × String)
  | (db, apps), jobId =>
    match db.jobs.find? (fun j => j.id = jobId) with
    | none => (db, apps)
    | some job =>
      let analysis := env.analyzeCv cvText
      let applicationId := env.appUuid jobId
      let db' := { db with applications := db.applications ++
        [{ id := applicationId, user_identifier := identifier, job_id := jobId
         , cv_text := cvText, cv_score := analysis }] }
      (db', apps ++ [(applicationId, job.title)])

/-- One success line of the fan-out report. -/
def appLine : String × String → String
  | (appId, title) => "- " ++ title ++ " (ID: " ++ appId ++ ")"

/-- The lines of the fan-out report, joined by newlines. -/
def appLines : List (String × String) → String
  | [] => ""
  | [a] => appLine a
  | a :: rest => appLine a ++ "\n" ++ appLines rest

/-- `applyToJobs(identifier, jobIds)`: read the cached artifacts, fan out
sequentially over the job ids, and report either `no valid jobs` or the
count with per-job identifiers. -/
def applyToJobs (env : BotEnv) (redis : RedisMap) (db : Db) (identifier : String)
    (jobIds : List String) : TurnResult :=
  let cvText := rvalStr (redis ("cv:" ++ identifier))
  let (db', apps) := jobIds.foldl (applyStep env identifier cvText) (db, [])
  if apps.isEmpty then
    { redis := redis, db := db', reply := "No valid jobs to apply to." }
  else
    { redis := redis, db := db'
    , reply := "Applied to " ++ toString apps.length ++ " job(s):\n" ++ appLines apps }

/-- `processIntent(identifier, intent)`: the intent router.  `search_jobs`
replays the filter-signature cache or queries and caches; `apply_job` runs
the payment gate, then the CV and cover-letter presence checks, then the
fan-out; anything else replies with the upstream fallback text. -/
def processIntent (env : BotEnv) (redis : RedisMap) (db : Db) (identifier : String)
    (intent : Intent) : TurnResult :=
  if intent.action = "search_jobs" then
    let cacheKey := "jobs:" ++ filtersKey intent.filters
    match redis cacheKey with
    | some (.cache response rows) =>
      { redis := rset redis ("last_jobs:" ++ identifier) (.jobRows rows)
      , db := db, reply := response }
    | _ =>
      let rows := searchJobsQuery intent.filters db.jobs
      if rows.isEmpty then
        { redis := redis, db := db, reply := "No jobs found. Try different filters." }
      else
        let response := searchResponse rows
        let redis₁ := rset redis ("last_jobs:" ++ identifier) (.jobRows rows)
        let redis₂ := rset redis₁ cacheKey (.cache response rows)
        { redis := redis₂, db := db, reply := response }
  else if intent.action = "apply_job" then
    let paymentStatus := checkPaymentStatus db identifier
    if paymentStatus ≠ "completed" then
      let init := initiatePayment env redis db identifier
      let jobIds := resolveJobIds redis identifier intent
      { redis := rset redis ("pending_jobs:" ++ identifier) (.ids jobIds)
      , db := init.db
      , reply := payToProceedMsg env.amountText init.url }
    else
      let cvText := rvalStr (redis ("cv:" ++ identifier))
      if cvText.getD "" = "" then
        { redis := redis, db := db, reply := uploadCvPromptMsg }
      else
        let coverLetter := rvalStr (redis ("cover_letter:" ++ identifier))
        if coverLetter.getD "" = "" then
          { redis := rset redis ("state:" ++ identifier) (.s "awaiting_cover_letter")
          , db := db, reply := coverLetterPromptMsg }
        else
          applyToJobs env redis db identifier (resolveJobIds redis identifier intent)
  else
    { redis := redis, db := db
    , reply := match intent.response with
        | some r => if r = "" then fallbackMsg else r
        | none => fallbackMsg }

/-- The inbound message handler.  `handleWhatsAppMessage` (lines 57-105) and
`handleTelegramMessage` (lines 107-155) of `src/services/bot.js` are
textually identical up to the outbound channel used for the reply; this
definition embeds their shared logic, with the reply text returned in the
`TurnResult`.  A rejection of the extraction task surfaces through the
handler-wide catch as the generic apology. -/
def handleIncomingMessage (env : BotEnv) (redis : RedisMap) (db : Db) (identifier : String)
    (message : Option String) (file : Option UploadFile) : TurnResult :=
  match file with
  | some f =>
    let paymentStatus := checkPaymentStatus db identifier
    if paymentStatus ≠ "completed" then
      let init := initiatePayment env redis db identifier
      { redis := redis, db := init.db
      , reply := payBeforeUploadMsg env.amountText init.url }
    else if f.bufLen > 5 * 1024 * 1024 then
      { redis := redis, db := db, reply := fileTooLargeMsg }
    else
      match env.extractCv f with
      | .error _ => { redis := redis, db := db, reply := genericApology }
      | .ok cvText =>
        let redis₁ := rset redis ("cv:" ++ identifier) (.s cvText)
        let redis₂ := rset redis₁ ("email:" ++ identifier)
          (.s (match f.email with
               | some e => if e = "" then identifier ++ "@example.com" else e
               | none => identifier ++ "@example.com"))
        let redis₃ := rset redis₂ ("state:" ++ identifier) (.s "awaiting_cover_letter")
        { redis := redis₃, db := db, reply := uploadSuccessMsg }
  | none =>
    let state := redis ("state:" ++ identifier)
    if state = some (.s "awaiting_cover_letter") ∧ message.getD "" ≠ "" then
      let msg := message.getD ""
      let coverLetter :=
        if lowerStr msg = "generate" then
          env.genCoverLetter (rvalStr (redis ("cv:" ++ identifier)))
        else msg
      let redis₁ := rset redis ("cover_letter:" ++ identifier) (.s coverLetter)
      let redis₂ := rdel redis₁ ("state:" ++ identifier)
      match redis₂ ("pending_jobs:" ++ identifier) with
      | some v =>
        let jobs := match v with | .ids l => l | _ => []
        let redis₃ := rdel redis₂ ("pending_jobs:" ++ identifier)
        applyToJobs env redis₃ db identifier jobs
      | none =>
        { redis := redis₂, db := db, reply := coverLetterSavedMsg }
    else
      processIntent env redis db identifier (env.parseIntent message)

/-- A sniffed file type as returned by `fileTypeFromBuffer`. -/
structure FileType where
  mime : String
  ext : String
  deriving DecidableEq, Repr

/-- Outcome of the optional clamscan step: `which clamscan` failing,
clamscan exiting 0, or clamscan exiting nonzero (which includes a positive
detection — `clamscan` exits 1 on a find, so `execPromise` rejects the same
way). -/
inductive ScanOutcome where
  | unavailable
  | clean
  | scanFailed
  deriving DecidableEq, Repr

/-- The `execPromise('which clamscan')` / `execPromise('clamscan …')`
sequence as one exception-or-value step. -/
def runClamscan : ScanOutcome → Except String String
  | .unavailable => .error "clamscan not found"
  | .clean => .ok ""
  | .scanFailed => .error "scan failed"

/-- The typed errors thrown by the worker, one per `throw` site. -/
inductive CvError where
  | invalidJobData
  | fileTooLarge
  | unknownFileType
  | unsupportedFileType (mime : String)
  | extractionFailed (msg : String)
  | noTextExtracted
  deriving DecidableEq, Repr

/-- The uploaded file as the worker sees it; only the byte length feeds the
worker's own control flow (the bytes feed the sniffing and extraction
oracles).  A missing `file.buffer` is folded into the `none` case of
`Option CvFile`. -/
structure CvFile where
  bufLen : Nat
  deriving DecidableEq, Repr

/-- Per-invocation oracles of the worker's external collaborators:
the sniffed type of this buffer, the clamscan outcome, the `pdf-parse` and
`mammoth` results on this buffer, and `os.tmpdir()` / `Date.now()`. -/
structure WorkerEnv where
  sniff : Option FileType
  scan : ScanOutcome
  pdf : Except String (List Char)
  docx : Except String (List Char)
  tmpdir : String
  now : Nat

/-- The two accepted mime types. -/
def allowedTypes : List String :=
  ["application/pdf",
   "application/vnd.openxmlformats-officedocument.wordprocessingml.document"]

/-- `identifier.toString().replace(/[^a-zA-Z0-9]/g, '_')`. -/
def sanitizeIdentifier (identifier : String) : String :=
  (identifier.toList.map (fun c => if c.isAlphanum then c else '_')).asString

/-- `path.join(os.tmpdir(), 'cv_<sanitized>_<now>.<ext>')`. -/
def tempPath (env : WorkerEnv) (identifier ext : String) : String :=
  env.tmpdir ++ "/cv_" ++ sanitizeIdentifier identifier ++ "_" ++ toString env.now ++ "." ++ ext

/-- The file system as a set of existing paths. -/
def Fs : Type := String → Bool

/-- `fs.writeFileSync(p, …)` (write modelled as succeeding). -/
def fsWrite (fs : Fs) (p : String) : Fs :=
  fun q => if q = p then true else fs q

/-- The `finally` cleanup: `if (fs.existsSync(p)) fs.unlinkSync(p)`
(unlink modelled as succeeding; its own catch only logs). -/
def fsRemove (fs : Fs) (p : String) : Fs :=
  fun q => if q = p then false else fs q

/-- Result of one worker invocation: the settled value of the BullMQ job
and the file-system state after the `finally` block. -/
structure WorkerResult where
  res : Except CvError (List Char)
  fs : Fs

/-- The CV extraction worker (current revision of `workers/cv.js`):
validate job data and size, sniff the type, write the temp file, run the
best-effort scan (its `try`/`catch` swallows every scan error), extract
text by mime (the mime is already known to be one of the two allowed, so
the `else if` arm is the docx one), reject empty or whitespace-only text,
normalize, and always run the `finally` cleanup once the temp file was
created. -/
def cvWorker (env : WorkerEnv) (file : Option CvFile) (identifier : String) (fs0 : Fs) :
    WorkerResult :=
  match file with
  | none => { res := .error .invalidJobData, fs := fs0 }
  | some f =>
    if identifier = "" then { res := .error .invalidJobData, fs := fs0 }
    else if f.bufLen > 5 * 1024 * 1024 then { res := .error .fileTooLarge, fs := fs0 }
    else
      match env.sniff with
      | none => { res := .error .unknownFileType, fs := fs0 }
      | some ty =>
        if ty.mime ∈ allowedTypes then
          let tmp := tempPath env identifier ty.ext
          let fs1 := fsWrite fs0 tmp
          let rest : WorkerResult :=
            match (if ty.mime = "application/pdf" then env.pdf else env.docx) with
            | .error e => { res := .error (.extractionFailed e), fs := fsRemove fs1 tmp }
            | .ok text =>
              if text.isEmpty || (jsTrim text).isEmpty then
                { res := .error .noTextExtracted, fs := fsRemove fs1 tmp }
              else
                { res := .ok (collapseWs (jsTrim text)), fs := fsRemove fs1 tmp }
          match runClamscan env.scan with
          | .ok _ => rest
          | .error _ => rest
        else { res := .error (.unsupportedFileType ty.mime), fs := fs0 }

/-- Concrete sample inputs shared by the witness theorems. -/
def noFilters : Filters :=
  { title := none, location := none, company := none, remote := none }

/-- Sample fallback intent. -/
def sampleIntentUnknown : Intent :=
  { action := "unknown", filters := noFilters, applyAll := false, jobId := none
  , response := none }

/-- Sample `apply_job` intent targeting one concrete job id. -/
def intentApplyOne : Intent :=
  { action := "apply_job", filters := noFilters, applyAll := false, jobId := some "job-1"
  , response := none }

/-- Sample environment with concrete collaborator oracles. -/
def sampleEnv : BotEnv :=
  { uuid := "11111111-2222-3333-4444-555555555555"
  , appUuid := fun j => "app-" ++ j
  , amountText := "500.00"
  , initUrl := fun _ reference _ => "https://pay.example/" ++ reference
  , verify := fun _ => true
  , extractCv := fun _ => .ok "CV TEXT"
  , genCoverLetter := fun _ => "GENERATED LETTER"
  , analyzeCv := fun _ => "SCORE"
  , parseIntent := fun _ => sampleIntentUnknown }

/-- Empty Redis. -/
def emptyRedis : RedisMap := fun _ => none

/-- Empty database. -/
def emptyDb : Db := { payments := fun _ => none, jobs := [], applications := [] }

/-- Sample identifier in the channel-A (phone) address space. -/
def cId : String := "+2348000000000"

/-- Sample upload. -/
def sampleUpload : UploadFile := { bufLen := 10, email := none }

/-- Database with a completed payment row for `cId`. -/
def dbPaid : Db :=
  { payments := fun q =>
      if q = cId then
        some { payment_status := "completed", payment_reference := "aaa_+2348000000000" }
      else none
  , jobs := [], applications := [] }

/-- Redis holding only a cached CV for `cId`. -/
def redisCv : RedisMap :=
  fun q => if q = "cv:" ++ cId then some (.s "MY CV") else none

/-- Database with a pending payment row for identifier `x` whose stored
reference is `aaa_x`. -/
def dbStale : Db :=
  { payments := fun q =>
      if q = "x" then some { payment_status := "pending", payment_reference := "aaa_x" }
      else none
  , jobs := [], applications := [] }

/-- Sample job whose title matches `%a_b%` only through the `_` wildcard. -/
def jobAxb : Job :=
  { id := "1", title := "axb", company := "Acme", location := "Lagos"
  , is_remote := false, email := "recruiter@acme.example" }

/-- Filters whose title value contains the `_` metacharacter. -/
def filterUnderscore : Filters :=
  { title := some "a_b", location := none, company := none, remote := none }

/-- Wildcard-free filters: lowercase location against a capitalised row,
plus an exact remote flag. -/
def fLagos : Filters :=
  { title := none, location := some "lagos", company := none, remote := some false }

/-- Sample worker environment: a sniffed PDF whose extraction yields messy
whitespace. -/
def sampleWorkerEnv : WorkerEnv :=
  { sniff := some { mime := "application/pdf", ext := "pdf" }
  , scan := .unavailable
  , pdf := .ok "  Hello   world \n".toList
  , docx := .error "not a docx"
  , tmpdir := "/tmp"
  , now := 42 }

/-- Sample worker file. -/
def sampleCvFile : CvFile := { bufLen := 1000 }

/-- Sample worker environment whose PDF extraction yields whitespace-only
text. -/
def sampleWorkerEnvEmptyText : WorkerEnv :=
  { sampleWorkerEnv with pdf := .ok "   ".toList }

/-- Empty file system. -/
def emptyFs : Fs := fun _ => false

/-- Redis holding only the `awaiting_cover_letter` state for `cId`. -/
def stateRedis : RedisMap :=
  fun q => if q = "state:" ++ cId then some (.s "awaiting_cover_letter") else none

/-- Two distinct Redis key prefixes give distinct keys for one identifier. -/
theorem append_right_ne {a b : String} (suffixStr : String) (h : a ≠ b) :
    a ++ suffixStr ≠ b ++ suffixStr := by
  intro heq
  apply h
  have hdata : a.data ++ suffixStr.data = b.data ++ suffixStr.data := by
    simpa [String.data_append] using congrArg String.data heq
  have hlen : a.data.length = b.data.length := by
    have hl : a.data.length + suffixStr.data.length = b.data.length + suffixStr.data.length := by
      simpa [List.length_append] using congrArg List.length hdata
    omega
  have hab := (List.append_inj hdata hlen).1
  cases a; cases b; exact congrArg String.mk hab

/-- C1: for every identifier and every CV file upload, if the payment status
read for that identifier is not `completed`, the message handler leaves the
session cache untouched (in particular it never writes extracted CV text)
and replies with the payment-prompt message carrying the URL obtained from
`initiatePayment`, instead of proceeding with extraction. -/
theorem cv_upload_payment_gate (env : BotEnv) (redis : RedisMap) (db : Db)
    (identifier : String) (message : Option String) (f : UploadFile)
    (hpay : checkPaymentStatus db identifier ≠ "completed") :
    (handleIncomingMessage env redis db identifier message (some f)).redis = redis ∧
    (handleIncomingMessage env redis db identifier message (some f)).reply =
      payBeforeUploadMsg env.amountText (initiatePayment env redis db identifier).url := by
  simp [handleIncomingMessage, hpay]

/-- Witness for C1 at a concrete state with no payment row. -/
theorem cv_upload_payment_gate_witness :
    (handleIncomingMessage sampleEnv emptyRedis emptyDb cId none (some sampleUpload)).redis =
      emptyRedis ∧
    (handleIncomingMessage sampleEnv emptyRedis emptyDb cId none (some sampleUpload)).reply =
      payBeforeUploadMsg sampleEnv.amountText
        (initiatePayment sampleEnv emptyRedis emptyDb cId).url :=
  cv_upload_payment_gate sampleEnv emptyRedis emptyDb cId none sampleUpload (by decide)

/-- C3: for an identifier that already has a payments row, `initiatePayment`
overwrites only the `payment_reference` field of that row (the
`payment_status` field is carried over unchanged, so a `completed` row stays
`completed`), and rows of other identifiers are untouched. -/
theorem initiate_overwrites_only_reference (env : BotEnv) (redis : RedisMap) (db : Db)
    (identifier : String) (row : PaymentRow)
    (hrow : db.payments identifier = some row) :
    (initiatePayment env redis db identifier).db.payments identifier =
      some { payment_status := row.payment_status
           , payment_reference := makeReference env.uuid identifier } ∧
    ∀ q, q ≠ identifier → (initiatePayment env redis db identifier).db.payments q =
      db.payments q := by
  constructor
  · simp [initiatePayment, upsertPayment, hrow]
  · intro q hq
    simp [initiatePayment, upsertPayment, hq]

/-- Witness for C3: a `completed` row keeps status `completed` and only its
reference changes; an unrelated identifier is untouched. -/
theorem initiate_overwrites_only_reference_witness :
    (initiatePayment sampleEnv emptyRedis dbPaid cId).db.payments cId =
      some { payment_status := "completed"
           , payment_reference := makeReference sampleEnv.uuid cId } ∧
    (initiatePayment sampleEnv emptyRedis dbPaid cId).db.payments "other" =
      dbPaid.payments "other" :=
  ⟨(initiate_overwrites_only_reference sampleEnv emptyRedis dbPaid cId
      { payment_status := "completed", payment_reference := "aaa_+2348000000000" }
      (by decide)).1,
   (initiate_overwrites_only_reference sampleEnv emptyRedis dbPaid cId
      { payment_status := "completed", payment_reference := "aaa_+2348000000000" }
      (by decide)).2 "other" (by decide)⟩

/-- A list without underscores is one whole segment of the split. -/
theorem splitUnderscore_no_underscore (b : List Char) (hb : '_' ∉ b) :
    splitUnderscore b = [b] := by
  induction b with
  | nil => rfl
  | cons c r ih =>
    have hc : ¬ c = '_' := fun h => hb (h ▸ List.mem_cons_self c r)
    have hr : '_' ∉ r := fun h => hb (List.mem_cons_of_mem _ h)
    simp [splitUnderscore, hc, ih hr]

/-- Splitting at the first underscore after an underscore-free block peels
off that block as the first segment. -/
theorem splitUnderscore_append (a b : List Char) (ha : '_' ∉ a) :
    splitUnderscore (a ++ '_' :: b) = a :: splitUnderscore b := by
  induction a with
  | nil => simp [splitUnderscore]
  | cons c a' ih =>
    have hc : ¬ c = '_' := fun h => ha (h ▸ List.mem_cons_self c a')
    have ha' : '_' ∉ a' := fun h => ha (List.mem_cons_of_mem _ h)
    simp [splitUnderscore, hc, ih ha']

/-- C4: the reference generated by `initiatePayment` is literally
`<uuid>_<identifier>`, and for every identifier accepted at the public
interface (chat addresses — phone numbers and numeric chat ids — contain no
underscore, and a `uuidv4()` value contains only hex digits and hyphens) the
confirmation path's parse recovers exactly the original identifier. -/
theorem payment_reference_roundtrip (uuid identifier : String)
    (hu : '_' ∉ uuid.toList) (hi : '_' ∉ identifier.toList) :
    makeReference uuid identifier = uuid ++ "_" ++ identifier ∧
    parseReferenceIdentifier (makeReference uuid identifier) = identifier := by
  refine ⟨rfl, ?_⟩
  unfold parseReferenceIdentifier makeReference
  have htl : (uuid ++ "_" ++ identifier).toList = uuid.toList ++ '_' :: identifier.toList := by
    simp [String.toList, String.data_append]
  rw [htl, splitUnderscore_append _ _ hu, splitUnderscore_no_underscore _ hi]
  rfl

/-- Witness for C4 at a concrete uuid and phone identifier. -/
theorem payment_reference_roundtrip_witness :
    makeReference sampleEnv.uuid cId = sampleEnv.uuid ++ "_" ++ cId ∧
    parseReferenceIdentifier (makeReference sampleEnv.uuid cId) = cId :=
  payment_reference_roundtrip sampleEnv.uuid cId (by decide) (by decide)

/-- C10: the payment-confirmation path flips a payments row to `completed`
exactly when the provider verifies the reference, the row is the one named
by the reference suffix, and the row's currently stored reference equals the
verified reference; in every other case — in particular a stale reference
that has been overwritten by a newer `initiatePayment`, even on provider
success — the row is left unchanged. -/
theorem confirm_requires_matching_reference (env : BotEnv) (redis : RedisMap) (db : Db)
    (reference q : String) (row : PaymentRow) (hrow : db.payments q = some row) :
    (processPayment env redis db reference).db.payments q =
      (if env.verify reference = true ∧ q = parseReferenceIdentifier reference ∧
           row.payment_reference = reference
       then some { row with payment_status := "completed" }
       else some row) := by
  unfold processPayment confirmUpdate
  by_cases hv : env.verify reference
  · simp only [hv, if_true, true_and]
    simp [hrow]
  · simp [hv, hrow]

/-- Witness for C10: provider verification succeeds for `bbb_x` but the row
for `x` stores the newer reference `aaa_x`, so its status stays `pending`. -/
theorem confirm_requires_matching_reference_witness :
    (processPayment sampleEnv emptyRedis dbStale "bbb_x").db.payments "x" =
      some { payment_status := "pending", payment_reference := "aaa_x" } := by
  have h := confirm_requires_matching_reference sampleEnv emptyRedis dbStale "bbb_x" "x"
    { payment_status := "pending", payment_reference := "aaa_x" } (by decide)
  rw [h, if_neg (by decide)]

/-- Counterexample for C2: with payment completed, a cached CV and no cached
cover letter, `processIntent` on an `apply_job` intent naming job `job-1`
leaves the pending-jobs key unset (refuting the claimed storing of the
resolved job-id set), even though it does set the state and prompt. -/
theorem apply_job_no_pending_store_counterexample :
    (processIntent sampleEnv redisCv dbPaid cId intentApplyOne).redis
        ("pending_jobs:" ++ cId) = none ∧
    (processIntent sampleEnv redisCv dbPaid cId intentApplyOne).redis
        ("state:" ++ cId) = some (.s "awaiting_cover_letter") := by
  decide

/-- C2 (amended): for an `apply_job` intent with payment completed, a cached
CV present and no cached cover letter, `processIntent` sets the conversation
state to `awaiting_cover_letter` and prompts the user, but does not store
the resolved job-id set: the pending-jobs key and the database are left
unchanged (pending jobs are stored only in the payment-incomplete branch). -/
theorem apply_job_cover_letter_branch (env : BotEnv) (redis : RedisMap) (db : Db)
    (identifier : String) (intent : Intent)
    (ha : intent.action = "apply_job")
    (hpay : checkPaymentStatus db identifier = "completed")
    (hcv : (rvalStr (redis ("cv:" ++ identifier))).getD "" ≠ "")
    (hcl : (rvalStr (redis ("cover_letter:" ++ identifier))).getD "" = "") :
    (processIntent env redis db identifier intent).redis ("state:" ++ identifier) =
      some (.s "awaiting_cover_letter") ∧
    (processIntent env redis db identifier intent).reply = coverLetterPromptMsg ∧
    (processIntent env redis db identifier intent).redis ("pending_jobs:" ++ identifier) =
      redis ("pending_jobs:" ++ identifier) ∧
    (processIntent env redis db identifier intent).db = db := by
  have hsearch : ¬ intent.action = "search_jobs" := by rw [ha]; decide
  have hkey : ("pending_jobs:" ++ identifier) ≠ ("state:" ++ identifier) :=
    append_right_ne identifier (by decide)
  simp [processIntent, hsearch, ha, hpay, hcv, hcl, rset, hkey]

/-- Witness for the amended C2 at a concrete state. -/
theorem apply_job_cover_letter_branch_witness :
    (processIntent sampleEnv redisCv dbPaid cId intentApplyOne).redis ("state:" ++ cId) =
      some (.s "awaiting_cover_letter") ∧
    (processIntent sampleEnv redisCv dbPaid cId intentApplyOne).reply = coverLetterPromptMsg ∧
    (processIntent sampleEnv redisCv dbPaid cId intentApplyOne).redis ("pending_jobs:" ++ cId) =
      redisCv ("pending_jobs:" ++ cId) ∧
    (processIntent sampleEnv redisCv dbPaid cId intentApplyOne).db = dbPaid :=
  apply_job_cover_letter_branch sampleEnv redisCv dbPaid cId intentApplyOne
    (by decide) (by decide) (by decide) (by decide)

/-- C9: while the state for an identifier is `awaiting_cover_letter`, a
non-empty text message equal to the literal token `generate` under
case-insensitive comparison triggers AI cover-letter generation from the
cached CV text and stores its output; any other text is stored itself,
byte for byte, as the cover letter. -/
theorem cover_letter_dialog (env : BotEnv) (redis : RedisMap) (db : Db)
    (identifier message : String)
    (hstate : redis ("state:" ++ identifier) = some (.s "awaiting_cover_letter"))
    (hmsg : message ≠ "") :
    (lowerStr message = "generate" →
      (handleIncomingMessage env redis db identifier (some message) none).redis
          ("cover_letter:" ++ identifier) =
        some (.s (env.genCoverLetter (rvalStr (redis ("cv:" ++ identifier)))))) ∧
    (lowerStr message ≠ "generate" →
      (handleIncomingMessage env redis db identifier (some message) none).redis
          ("cover_letter:" ++ identifier) = some (.s message)) := by
  have hk1 : ("cover_letter:" ++ identifier) ≠ ("state:" ++ identifier) :=
    append_right_ne identifier (by decide)
  have hk2 : ("cover_letter:" ++ identifier) ≠ ("pending_jobs:" ++ identifier) :=
    append_right_ne identifier (by decide)
  have hk3 : ("pending_jobs:" ++ identifier) ≠ ("state:" ++ identifier) :=
    append_right_ne identifier (by decide)
  have hk4 : ("pending_jobs:" ++ identifier) ≠ ("cover_letter:" ++ identifier) :=
    append_right_ne identifier (by decide)
  constructor
  · intro hgen
    cases hpend : redis ("pending_jobs:" ++ identifier) with
    | none =>
      simp [handleIncomingMessage, hstate, hmsg, hgen, rdel, rset, hk1, hk2, hk3, hk4, hpend]
    | some v =>
      simp [handleIncomingMessage, hstate, hmsg, hgen, rdel, rset, hk1, hk2, hk3, hk4, hpend,
        applyToJobs, apply_ite TurnResult.redis]
  · intro hgen
    cases hpend : redis ("pending_jobs:" ++ identifier) with
    | none =>
      simp [handleIncomingMessage, hstate, hmsg, hgen, rdel, rset, hk1, hk2, hk3, hk4, hpend]
    | some v =>
      simp [handleIncomingMessage, hstate, hmsg, hgen, rdel, rset, hk1, hk2, hk3, hk4, hpend,
        applyToJobs, apply_ite TurnResult.redis]

/-- Witness for C9: a mixed-case `GeNeRaTe` stores the generated letter; a
plain text message is stored verbatim. -/
theorem cover_letter_dialog_witness :
    (handleIncomingMessage sampleEnv stateRedis emptyDb cId (some "GeNeRaTe") none).redis
        ("cover_letter:" ++ cId) =
      some (.s (sampleEnv.genCoverLetter (rvalStr (stateRedis ("cv:" ++ cId))))) ∧
    (handleIncomingMessage sampleEnv stateRedis emptyDb cId (some "my own letter") none).redis
        ("cover_letter:" ++ cId) = some (.s "my own letter") :=
  ⟨(cover_letter_dialog sampleEnv stateRedis emptyDb cId "GeNeRaTe"
      (by decide) (by decide)).1 (by decide),
   (cover_letter_dialog sampleEnv stateRedis emptyDb cId "my own letter"
      (by decide) (by decide)).2 (by decide)⟩

/-- One unfolding step of the fuelled matcher at an empty pattern. -/
theorem likeAux_succ_nil (fuel : Nat) (t : List Char) :
    likeAux (fuel + 1) [] t = t.isEmpty := by
  simp [likeAux]

/-- One unfolding step of the fuelled matcher at a leading `%` against an
exhausted text. -/
theorem likeAux_succ_percent_nil (fuel : Nat) (ps : List Char) :
    likeAux (fuel + 1) ('%' :: ps) [] = likeAux fuel ps [] := by
  simp [likeAux]

/-- One unfolding step of the fuelled matcher at a leading `%` against a
text character. -/
theorem likeAux_succ_percent_cons (fuel : Nat) (ps : List Char) (d : Char) (ts : List Char) :
    likeAux (fuel + 1) ('%' :: ps) (d :: ts) =
      (likeAux fuel ps (d :: ts) || likeAux fuel ('%' :: ps) ts) := by
  simp [likeAux]

/-- One unfolding step of the fuelled matcher at a non-`%` pattern head
against an exhausted text. -/
theorem likeAux_succ_lit_nil (fuel : Nat) (c : Char) (ps : List Char) (hc : ¬ c = '%') :
    likeAux (fuel + 1) (c :: ps) [] = false := by
  simp [likeAux, hc]

/-- One unfolding step of the fuelled matcher at a non-`%` pattern head
against a text character. -/
theorem likeAux_succ_lit_cons (fuel : Nat) (c : Char) (ps : List Char)
    (d : Char) (ts : List Char) (hc : ¬ c = '%') :
    likeAux (fuel + 1) (c :: ps) (d :: ts) =
      ((c = '_' || asciiLower c = asciiLower d) && likeAux fuel ps ts) := by
  simp [likeAux, hc]

/-- Any two sufficient fuels give the same match result. -/
theorem likeAux_congr (n : Nat) : ∀ (m : Nat) (p t : List Char),
    p.length + t.length < n → p.length + t.length < m →
    likeAux n p t = likeAux m p t := by
  induction n with
  | zero => intro m p t hn _; omega
  | succ n ih =>
    intro m p t hn hm
    cases m with
    | zero => omega
    | succ m =>
      cases p with
      | nil => rw [likeAux_succ_nil, likeAux_succ_nil]
      | cons c ps =>
        by_cases hc : c = '%'
        · subst hc
          cases t with
          | nil =>
            rw [likeAux_succ_percent_nil, likeAux_succ_percent_nil]
            rw [ih m ps []
              (by simp only [List.length_cons, List.length_nil] at hn ⊢; omega)
              (by simp only [List.length_cons, List.length_nil] at hm ⊢; omega)]
          | cons d ts =>
            rw [likeAux_succ_percent_cons, likeAux_succ_percent_cons]
            rw [ih m ps (d :: ts)
              (by simp only [List.length_cons] at hn ⊢; omega)
              (by simp only [List.length_cons] at hm ⊢; omega)]
            rw [ih m ('%' :: ps) ts
              (by simp only [List.length_cons] at hn ⊢; omega)
              (by simp only [List.length_cons] at hm ⊢; omega)]
        · cases t with
          | nil => rw [likeAux_succ_lit_nil _ _ _ hc, likeAux_succ_lit_nil _ _ _ hc]
          | cons d ts =>
            rw [likeAux_succ_lit_cons _ _ _ _ _ hc, likeAux_succ_lit_cons _ _ _ _ _ hc]
            rw [ih m ps ts
              (by simp only [List.length_cons] at hn ⊢; omega)
              (by simp only [List.length_cons] at hm ⊢; omega)]

/-- Excess fuel collapses to the canonical fuel. -/
theorem likeAux_toMatch (n : Nat) (p t : List Char) (h : p.length + t.length < n) :
    likeAux n p t = likeMatch p t :=
  likeAux_congr n (p.length + t.length + 1) p t h (by omega)

/-- Matcher equation: empty pattern. -/
theorem likeMatch_nil (t : List Char) : likeMatch [] t = t.isEmpty := by
  unfold likeMatch
  exact likeAux_succ_nil _ t

/-- Matcher equation: leading `%` at exhausted text defers to the rest of
the pattern. -/
theorem likeMatch_percent_nil (ps : List Char) :
    likeMatch ('%' :: ps) [] = likeMatch ps [] := by
  show likeAux (ps.length + 1 + 0 + 1) ('%' :: ps) [] = _
  rw [likeAux_succ_percent_nil]
  exact likeAux_toMatch (ps.length + 1 + 0) ps [] (by simp)

/-- Matcher equation: leading `%` tries the rest of the pattern here or the
same pattern one character further. -/
theorem likeMatch_percent_cons (ps : List Char) (d : Char) (ts : List Char) :
    likeMatch ('%' :: ps) (d :: ts) =
      (likeMatch ps (d :: ts) || likeMatch ('%' :: ps) ts) := by
  show likeAux (ps.length + 1 + (ts.length + 1) + 1) ('%' :: ps) (d :: ts) = _
  rw [likeAux_succ_percent_cons]
  rw [likeAux_toMatch (ps.length + 1 + (ts.length + 1)) ps (d :: ts)
    (by simp only [List.length_cons]; omega)]
  rw [likeAux_toMatch (ps.length + 1 + (ts.length + 1)) ('%' :: ps) ts
    (by simp only [List.length_cons]; omega)]

/-- Matcher equation: non-`%` head against exhausted text fails. -/
theorem likeMatch_lit_nil (c : Char) (ps : List Char) (hc : ¬ c = '%') :
    likeMatch (c :: ps) [] = false := by
  show likeAux (ps.length + 1 + 0 + 1) (c :: ps) [] = _
  rw [likeAux_succ_lit_nil _ _ _ hc]

/-- Matcher equation: non-`%` head consumes one text character. -/
theorem likeMatch_lit_cons (c : Char) (ps : List Char) (d : Char) (ts : List Char)
    (hc : ¬ c = '%') :
    likeMatch (c :: ps) (d :: ts) =
      ((c = '_' || asciiLower c = asciiLower d) && likeMatch ps ts) := by
  show likeAux (ps.length + 1 + (ts.length + 1) + 1) (c :: ps) (d :: ts) = _
  rw [likeAux_succ_lit_cons _ _ _ _ _ hc, likeAux_toMatch _ ps ts (by omega)]

/-- A trailing lone `%` matches every text. -/
theorem likeMatch_percent_all : ∀ s : List Char, likeMatch ['%'] s = true := by
  intro s
  induction s with
  | nil => rw [likeMatch_percent_nil, likeMatch_nil]; rfl
  | cons d ts ih => rw [likeMatch_percent_cons, likeMatch_nil, ih]; simp

/-- A wildcard-free pattern followed by `%` matches exactly the texts it is
a case-insensitive prefix of. -/
theorem likeMatch_lit_percent : ∀ (p : List Char), '%' ∉ p → '_' ∉ p →
    ∀ s, likeMatch (p ++ ['%']) s = isPrefixCI p s := by
  intro p
  induction p with
  | nil => intro _ _ s; simpa [isPrefixCI] using likeMatch_percent_all s
  | cons c p' ih =>
    intro hpc hus s
    have hc : ¬ c = '%' := fun h => hpc (h ▸ List.mem_cons_self c p')
    have hu : ¬ c = '_' := fun h => hus (h ▸ List.mem_cons_self c p')
    have hpc' : '%' ∉ p' := fun h => hpc (List.mem_cons_of_mem _ h)
    have hus' : '_' ∉ p' := fun h => hus (List.mem_cons_of_mem _ h)
    cases s with
    | nil => rw [List.cons_append, likeMatch_lit_nil _ _ hc]; rfl
    | cons d ts =>
      rw [List.cons_append, likeMatch_lit_cons _ _ _ _ hc, ih hpc' hus' ts]
      simp [isPrefixCI, hu]

/-- A wildcard-free pattern wrapped in `%…%` matches exactly the texts that
contain it as a case-insensitive substring. -/
theorem likeMatch_contains (p : List Char) (hpc : '%' ∉ p) (hus : '_' ∉ p) :
    ∀ s, likeMatch ('%' :: (p ++ ['%'])) s = containsCI p s := by
  intro s
  induction s with
  | nil =>
    rw [likeMatch_percent_nil, likeMatch_lit_percent p hpc hus []]
    simp [containsCI]
  | cons d ts ih =>
    rw [likeMatch_percent_cons, likeMatch_lit_percent p hpc hus (d :: ts), ih]
    simp [containsCI]

/-- The empty needle is contained in every text. -/
theorem containsCI_nil : ∀ s : List Char, containsCI [] s = true := by
  intro s
  induction s with
  | nil => rfl
  | cons d ts ih => simp [containsCI, isPrefixCI, ih]

/-- `field ILIKE '%t%'` for a wildcard-free `t` is exactly case-insensitive
substring containment. -/
theorem ilike_containsCI (t s : String) (hw : wildcardFree t) :
    ilike s ("%" ++ t ++ "%") = containsCI t.toList s.toList := by
  unfold ilike
  have htl : ("%" ++ t ++ "%").toList = '%' :: (t.toList ++ ['%']) := by
    simp [String.toList, String.data_append]
  rw [htl, likeMatch_contains t.toList hw.1 hw.2.1]

/-- One optional text filter evaluates, under the source's parameter
construction, to the spec-side substring test (an empty string is falsy and
behaves like an unset filter, which the empty needle also matches). -/
theorem textParam_field (t : Option String) (field : String) (h : optWildcardFree t) :
    whereTextField (textParam t) field = specTextField t field := by
  cases t with
  | none => rfl
  | some tv =>
    by_cases ht : tv = ""
    · subst ht
      simp [whereTextField, specTextField, textParam, containsCI_nil]
    · simp only [textParam, if_neg ht, whereTextField, specTextField]
      exact ilike_containsCI tv field h

/-- The SQL `WHERE` clause coincides row-wise with the spec-side filter
predicate whenever the text filters are wildcard-free. -/
theorem rowWhere_eq_satisfies (f : Filters) (j : Job)
    (h1 : optWildcardFree f.title) (h2 : optWildcardFree f.location)
    (h3 : optWildcardFree f.company) :
    rowWhere (textParam f.title) (textParam f.location) (textParam f.company) f.remote j =
      satisfiesFilters f j := by
  unfold rowWhere satisfiesFilters
  rw [textParam_field f.title j.title h1, textParam_field f.location j.location h2,
    textParam_field f.company j.company h3]

/-- Counterexample for C8: the filter title `a_b` is not a case-insensitive
substring of the row title `axb`, yet the query returns the row, because the
`_` travels into the `ILIKE` pattern as a single-character wildcard; so
`returned iff substring-satisfying` fails as stated. -/
theorem search_filter_matches_non_substring :
    jobAxb ∈ searchJobsQuery filterUnderscore [jobAxb] ∧
    satisfiesFilters filterUnderscore jobAxb = false := by
  decide

/-- C8 (amended): when every set text filter is free of `LIKE`
metacharacters (`%`, `_`, and the escape `\`), every returned row satisfies
all non-null filters — case-insensitive substring on title, company and
location, exact boolean match on the remote flag, a null filter excluding
nothing — the result has at most 5 rows, and whenever at most 5 rows of the
table satisfy the filters, every satisfying row is returned.  (For filter
values containing metacharacters the query follows `ILIKE` pattern
semantics instead, and rows beyond the `LIMIT 5` cap are not returned.) -/
theorem search_jobs_filter_semantics (f : Filters) (table : List Job)
    (h1 : optWildcardFree f.title) (h2 : optWildcardFree f.location)
    (h3 : optWildcardFree f.company) :
    (∀ j ∈ searchJobsQuery f table, satisfiesFilters f j = true) ∧
    (searchJobsQuery f table).length ≤ 5 ∧
    ((table.filter (satisfiesFilters f)).length ≤ 5 →
      ∀ j ∈ table, satisfiesFilters f j = true → j ∈ searchJobsQuery f table) := by
  have hq : searchJobsQuery f table = (table.filter (satisfiesFilters f)).take 5 := by
    unfold searchJobsQuery
    congr 1
    exact List.filter_congr (fun j _ => rowWhere_eq_satisfies f j h1 h2 h3)
  refine ⟨?_, ?_, ?_⟩
  · intro j hj
    rw [hq] at hj
    exact (List.mem_filter.mp (List.take_subset _ _ hj)).2
  · rw [hq, List.length_take]
    omega
  · intro hlen j hj hsat
    rw [hq, List.take_of_length_le hlen]
    exact List.mem_filter.mpr ⟨hj, hsat⟩

/-- Witness for the amended C8: a lowercase location filter matches the
capitalised row, the row is returned, and the cap holds. -/
theorem search_jobs_filter_semantics_witness :
    satisfiesFilters fLagos jobAxb = true ∧
    jobAxb ∈ searchJobsQuery fLagos [jobAxb] ∧
    (searchJobsQuery fLagos [jobAxb]).length ≤ 5 :=
  have h := search_jobs_filter_semantics fLagos [jobAxb] trivial
    ⟨by decide, by decide, by decide⟩ trivial
  ⟨by decide,
   h.2.2 (by decide) jobAxb (by decide) (by decide),
   h.2.1⟩

/-- Every character emitted by the collapse pass that is whitespace is the
single space. -/
theorem collapseAux_ws_space : ∀ (l : List Char) (b : Bool),
    ∀ c ∈ collapseAux b l, isWs c = true → c = ' ' := by
  intro l
  induction l with
  | nil => intro b c hc; simp [collapseAux] at hc
  | cons d r ih =>
    intro b c hc hw
    by_cases hd : isWs d
    · cases b with
      | true =>
        rw [show collapseAux true (d :: r) = collapseAux true r by simp [collapseAux, hd]] at hc
        exact ih true c hc hw
      | false =>
        rw [show collapseAux false (d :: r) = ' ' :: collapseAux true r by
          simp [collapseAux, hd]] at hc
        rcases List.mem_cons.mp hc with h | h
        · exact h
        · exact ih true c h hw
    · rw [show collapseAux b (d :: r) = d :: collapseAux false r by
        simp [collapseAux, hd]] at hc
      rcases List.mem_cons.mp hc with h | h
      · subst h; exact absurd hw hd
      · exact ih false c h hw

/-- After the collapse pass has just emitted a space (flag set), the next
emitted character is never whitespace. -/
theorem collapseAux_true_head : ∀ (l : List Char) (c : Char),
    (collapseAux true l).head? = some c → isWs c = false := by
  intro l
  induction l with
  | nil => intro c h; simp [collapseAux] at h
  | cons d r ih =>
    intro c h
    by_cases hd : isWs d
    · rw [show collapseAux true (d :: r) = collapseAux true r by simp [collapseAux, hd]] at h
      exact ih c h
    · rw [show collapseAux true (d :: r) = d :: collapseAux false r by
        simp [collapseAux, hd]] at h
      cases h
      simpa using hd

/-- The collapse pass never emits two adjacent whitespace characters. -/
theorem collapseAux_chain : ∀ (l : List Char) (b : Bool),
    List.Chain' (fun a c => ¬(isWs a = true ∧ isWs c = true)) (collapseAux b l) := by
  intro l
  induction l with
  | nil => intro b; simp [collapseAux]
  | cons d r ih =>
    intro b
    by_cases hd : isWs d
    · cases b with
      | true =>
        rw [show collapseAux true (d :: r) = collapseAux true r by simp [collapseAux, hd]]
        exact ih true
      | false =>
        rw [show collapseAux false (d :: r) = ' ' :: collapseAux true r by
          simp [collapseAux, hd]]
        refine List.chain'_cons'.mpr ⟨?_, ih true⟩
        intro y hy hcon
        exact absurd hcon.2 (by simp [collapseAux_true_head r y hy])
    · rw [show collapseAux b (d :: r) = d :: collapseAux false r by simp [collapseAux, hd]]
      refine List.chain'_cons'.mpr ⟨?_, ih false⟩
      intro y hy hcon
      exact absurd hcon.1 (by simpa using hd)

/-- The collapse pass started on a non-whitespace head keeps that head. -/
theorem collapseWs_head (d : Char) (r : List Char) (hd : isWs d = false) :
    (collapseWs (d :: r)).head? = some d := by
  simp [collapseWs, collapseAux, hd]

/-- The collapse pass on a nonempty input is nonempty. -/
theorem collapseWs_ne_nil (l : List Char) (h : l ≠ []) : collapseWs l ≠ [] := by
  cases l with
  | nil => exact absurd rfl h
  | cons d r =>
    by_cases hd : isWs d <;> simp [collapseWs, collapseAux, hd]

/-- The skipping collapse pass stays nonempty as long as some non-whitespace
character remains. -/
theorem collapseAux_true_ne_nil : ∀ (r : List Char),
    (∃ c ∈ r, isWs c = false) → collapseAux true r ≠ [] := by
  intro r
  induction r with
  | nil => rintro ⟨c, hc, _⟩; cases hc
  | cons d r' ih =>
    rintro ⟨c, hc, hw⟩
    by_cases hd : isWs d
    · rw [show collapseAux true (d :: r') = collapseAux true r' by simp [collapseAux, hd]]
      rcases List.mem_cons.mp hc with h | h
      · subst h; simp [hd] at hw
      · exact ih ⟨c, h, hw⟩
    · rw [show collapseAux true (d :: r') = d :: collapseAux false r' by
        simp [collapseAux, hd]]
      simp

/-- If the input's last character is not whitespace, neither is the last
character of the collapse pass's output. -/
theorem collapseAux_getLast : ∀ (l : List Char) (b : Bool),
    (∀ c, l.getLast? = some c → isWs c = false) →
    ∀ c, (collapseAux b l).getLast? = some c → isWs c = false := by
  intro l
  induction l with
  | nil => intro b _ c hc; simp [collapseAux] at hc
  | cons d r ih =>
    intro b h c hc
    cases r with
    | nil =>
      have hd : isWs d = false := h d (by simp)
      rw [show collapseAux b [d] = [d] by simp [collapseAux, hd]] at hc
      cases hc
      exact hd
    | cons e r' =>
      have h' : ∀ c, (e :: r').getLast? = some c → isWs c = false := by
        intro c hcc
        exact h c (by rw [List.getLast?_cons_cons]; exact hcc)
      have hLval : (e :: r').getLast? = some ((e :: r').getLast (by simp)) :=
        List.getLast?_eq_getLast _ _
      have hLmem : (e :: r').getLast (by simp) ∈ e :: r' := List.getLast_mem _
      have hLws : isWs ((e :: r').getLast (by simp)) = false := h' _ hLval
      by_cases hd : isWs d
      · cases b with
        | true =>
          rw [show collapseAux true (d :: e :: r') = collapseAux true (e :: r') by
            simp [collapseAux, hd]] at hc
          exact ih true h' c hc
        | false =>
          rw [show collapseAux false (d :: e :: r') = ' ' :: collapseAux true (e :: r') by
            simp [collapseAux, hd]] at hc
          have hX : collapseAux true (e :: r') ≠ [] :=
            collapseAux_true_ne_nil (e :: r') ⟨_, hLmem, hLws⟩
          cases hXv : collapseAux true (e :: r') with
          | nil => exact absurd hXv hX
          | cons x xs =>
            rw [hXv, List.getLast?_cons_cons] at hc
            exact ih true h' c (by rw [hXv]; exact hc)
      · rw [show collapseAux b (d :: e :: r') = d :: collapseAux false (e :: r') by
          simp [collapseAux, hd]] at hc
        have hX : collapseAux false (e :: r') ≠ [] := collapseWs_ne_nil _ (by simp)
        cases hXv : collapseAux false (e :: r') with
        | nil => exact absurd hXv hX
        | cons x xs =>
          rw [hXv, List.getLast?_cons_cons] at hc
          exact ih false h' c (by rw [hXv]; exact hc)

/-- The head surviving `dropWhile` fails the dropped predicate. -/
theorem dropWhile_head_not (p : Char → Bool) : ∀ (l : List Char) (c : Char),
    (l.dropWhile p).head? = some c → p c = false := by
  intro l
  induction l with
  | nil => intro c h; simp at h
  | cons d r ih =>
    intro c h
    by_cases hd : p d
    · rw [List.dropWhile_cons_of_pos hd] at h
      exact ih c h
    · rw [List.dropWhile_cons_of_neg hd] at h
      cases h
      simpa using hd

/-- The trimmed text never starts with whitespace. -/
theorem jsTrim_head (l : List Char) (c : Char) (h : (jsTrim l).head? = some c) :
    isWs c = false := by
  have hpre : jsTrim l <+: l.dropWhile isWs := by
    have hsuf : ((l.dropWhile isWs).reverse.dropWhile isWs) <:+ (l.dropWhile isWs).reverse :=
      List.dropWhile_suffix isWs
    have := List.reverse_prefix.mpr hsuf
    simpa [jsTrim] using this
  obtain ⟨rest, hrest⟩ := hpre
  cases ht : jsTrim l with
  | nil => rw [ht] at h; cases h
  | cons x xs =>
    rw [ht] at h
    cases h
    apply dropWhile_head_not isWs l
    rw [← hrest, ht]
    rfl

/-- The trimmed text never ends with whitespace. -/
theorem jsTrim_getLast (l : List Char) (c : Char) (h : (jsTrim l).getLast? = some c) :
    isWs c = false := by
  rw [← List.head?_reverse] at h
  simp only [jsTrim, List.reverse_reverse] at h
  exact dropWhile_head_not isWs _ c h

/-- Trim-then-collapse yields nonempty normalized text whenever the trimmed
text is nonempty. -/
theorem normalized_collapse_trim (raw : List Char) (h : jsTrim raw ≠ []) :
    collapseWs (jsTrim raw) ≠ [] ∧ NormalizedText (collapseWs (jsTrim raw)) := by
  refine ⟨collapseWs_ne_nil _ h, ?_, ?_, ?_, ?_⟩
  · exact fun c hc hw => collapseAux_ws_space _ false c hc hw
  · exact collapseAux_chain _ false
  · intro c hc
    cases ht : jsTrim raw with
    | nil => exact absurd ht h
    | cons d r =>
      have hd : isWs d = false := jsTrim_head raw d (by rw [ht]; rfl)
      rw [ht, collapseWs_head d r hd] at hc
      cases hc
      exact hd
  · exact collapseAux_getLast (jsTrim raw) false (fun x hx => jsTrim_getLast raw x hx)

/-- C7: once an invocation reaches the point where the temporary file is
created (valid job data, size within bound, sniffed type allowed), the
temporary file is absent from the file system when the invocation returns,
on every exit path — for every scan outcome and every extraction outcome. -/
theorem cv_worker_temp_cleanup (env : WorkerEnv) (file : Option CvFile)
    (identifier : String) (fs0 : Fs) (f : CvFile) (ty : FileType)
    (hf : file = some f) (hid : identifier ≠ "")
    (hsize : ¬ f.bufLen > 5 * 1024 * 1024)
    (hsniff : env.sniff = some ty) (hallow : ty.mime ∈ allowedTypes) :
    (cvWorker env file identifier fs0).fs (tempPath env identifier ty.ext) = false := by
  subst hf
  cases hscan : env.scan <;>
    cases hext : (if ty.mime = "application/pdf" then env.pdf else env.docx) <;>
      simp [cvWorker, hsniff, hid, hsize, hallow, hext, hscan, runClamscan, fsRemove,
        apply_ite WorkerResult.fs]

/-- Witness for C7 at the sample invocation. -/
theorem cv_worker_temp_cleanup_witness :
    (cvWorker sampleWorkerEnv (some sampleCvFile) cId emptyFs).fs
      (tempPath sampleWorkerEnv cId "pdf") = false :=
  cv_worker_temp_cleanup sampleWorkerEnv (some sampleCvFile) cId emptyFs sampleCvFile
    { mime := "application/pdf", ext := "pdf" } rfl (by decide) (by decide) rfl (by decide)

/-- C5: the scan step is best-effort — the worker's result is identical
whether the scanner is unavailable or ran clean (its `try`/`catch` swallows
every scan error), and on a valid input whose extraction yields text with
nonempty trim, the invocation with an unavailable scanner still returns the
normalized text successfully. -/
theorem cv_worker_scan_best_effort (env : WorkerEnv) (file : Option CvFile)
    (identifier : String) (fs0 : Fs) (f : CvFile) (ty : FileType) (text : List Char)
    (hf : file = some f) (hid : identifier ≠ "")
    (hsize : ¬ f.bufLen > 5 * 1024 * 1024)
    (hsniff : env.sniff = some ty) (hallow : ty.mime ∈ allowedTypes)
    (hext : (if ty.mime = "application/pdf" then env.pdf else env.docx) = .ok text)
    (htext : jsTrim text ≠ []) :
    cvWorker { env with scan := .unavailable } file identifier fs0 =
      cvWorker env file identifier fs0 ∧
    (cvWorker { env with scan := .unavailable } file identifier fs0).res =
      .ok (collapseWs (jsTrim text)) := by
  subst hf
  have htne : text ≠ [] := by
    intro hnil
    exact htext (by rw [hnil]; rfl)
  have hg : (text.isEmpty || (jsTrim text).isEmpty) = false := by
    cases text with
    | nil => exact absurd rfl htne
    | cons a as =>
      cases hjt : jsTrim (a :: as) with
      | nil => exact absurd hjt htext
      | cons b bs => simp [List.isEmpty]
  constructor
  · cases hscan : env.scan <;>
      simp [cvWorker, hsniff, hid, hsize, hallow, hext, hg, runClamscan, hscan, tempPath]
  · simp [cvWorker, hsniff, hid, hsize, hallow, hext, hg, runClamscan]

/-- Witness for C5 at the sample invocation (scanner unavailable). -/
theorem cv_worker_scan_best_effort_witness :
    cvWorker { sampleWorkerEnv with scan := .unavailable } (some sampleCvFile) cId emptyFs =
      cvWorker sampleWorkerEnv (some sampleCvFile) cId emptyFs ∧
    (cvWorker { sampleWorkerEnv with scan := .unavailable } (some sampleCvFile) cId
        emptyFs).res = .ok (collapseWs (jsTrim "  Hello   world \n".toList)) :=
  cv_worker_scan_best_effort sampleWorkerEnv (some sampleCvFile) cId emptyFs sampleCvFile
    { mime := "application/pdf", ext := "pdf" } "  Hello   world \n".toList
    rfl (by decide) (by decide) rfl (by decide) rfl (by decide)

/-- C6: every successful worker result is nonempty normalized text (only
single spaces as whitespace, no adjacent whitespace, none leading or
trailing), and an extraction that yields empty or whitespace-only text makes
the invocation fail with the no-text error rather than succeed. -/
theorem cv_worker_output_normalized (env : WorkerEnv) (file : Option CvFile)
    (identifier : String) (fs0 : Fs) :
    (∀ s, (cvWorker env file identifier fs0).res = .ok s → s ≠ [] ∧ NormalizedText s) ∧
    (∀ (f : CvFile) (ty : FileType) (text : List Char),
      file = some f → identifier ≠ "" → ¬ f.bufLen > 5 * 1024 * 1024 →
      env.sniff = some ty → ty.mime ∈ allowedTypes →
      (if ty.mime = "application/pdf" then env.pdf else env.docx) = .ok text →
      jsTrim text = [] →
      (cvWorker env file identifier fs0).res = .error .noTextExtracted) := by
  constructor
  · intro s hs
    cases file with
    | none => simp [cvWorker] at hs
    | some f =>
      by_cases hid : identifier = ""
      · simp [cvWorker, hid] at hs
      · by_cases hsize : f.bufLen > 5 * 1024 * 1024
        · simp [cvWorker, hid, hsize] at hs
        · cases hsniff : env.sniff with
          | none => simp [cvWorker, hid, hsize, hsniff] at hs
          | some ty =>
            by_cases hallow : ty.mime ∈ allowedTypes
            · cases hext : (if ty.mime = "application/pdf" then env.pdf else env.docx) with
              | error e =>
                cases hscan : env.scan <;>
                  simp [cvWorker, hid, hsize, hsniff, hallow, hext, hscan, runClamscan] at hs
              | ok text =>
                cases hg : (text.isEmpty || (jsTrim text).isEmpty) with
                | true =>
                  cases hscan : env.scan <;>
                    simp [cvWorker, hid, hsize, hsniff, hallow, hext, hscan, runClamscan,
                      hg] at hs
                | false =>
                  have hcollapse :
                      (cvWorker env (some f) identifier fs0).res =
                        .ok (collapseWs (jsTrim text)) := by
                    cases hscan : env.scan <;>
                      simp [cvWorker, hid, hsize, hsniff, hallow, hext, hscan, runClamscan, hg]
                  rw [hcollapse] at hs
                  cases hs
                  have htext : jsTrim text ≠ [] := by
                    intro hnil
                    rw [hnil] at hg
                    simp [List.isEmpty] at hg
                  have hn := normalized_collapse_trim text htext
                  exact ⟨hn.1, hn.2⟩
            · simp [cvWorker, hid, hsize, hsniff, hallow] at hs
  · intro f ty text hf hid hsize hsniff hallow hext htrim
    subst hf
    have hg : (text.isEmpty || (jsTrim text).isEmpty) = true := by
      rw [htrim]
      simp [List.isEmpty]
    cases hscan : env.scan <;>
      simp [cvWorker, hid, hsize, hsniff, hallow, hext, hscan, runClamscan, hg]

/-- Witness for C6: the sample invocation's output is nonempty normalized
text, and the whitespace-only sample extraction fails with the no-text
error. -/
theorem cv_worker_output_normalized_witness :
    (collapseWs (jsTrim "  Hello   world \n".toList) ≠ [] ∧
      NormalizedText (collapseWs (jsTrim "  Hello   world \n".toList))) ∧
    (cvWorker sampleWorkerEnvEmptyText (some sampleCvFile) cId emptyFs).res =
      .error .noTextExtracted :=
  ⟨(cv_worker_output_normalized sampleWorkerEnv (some sampleCvFile) cId emptyFs).1
      (collapseWs (jsTrim "  Hello   world \n".toList)) rfl,
   (cv_worker_output_normalized sampleWorkerEnvEmptyText (some sampleCvFile) cId emptyFs).2
      sampleCvFile { mime := "application/pdf", ext := "pdf" } "   ".toList
      rfl (by decide) (by decide) rfl (by decide) rfl (by decide)⟩

end SmartCV
